import Mathlib

/-!
# Verification of the melanzana appointment scraper

Shallow embedding of the Go sources (`filter.go`, `storage.go`, `scraper.go`,
`main.go` and the filter file of the month-based variant) together with proofs of
the behavioural claims about the novelty-filtering pipeline.

External effects (HTTP, the regexp engine, goquery document parsing, the file
system) are modelled as explicit parameters; everything the repository itself
computes is embedded directly.
-/

/-! ## String utilities modelling the Go standard library helpers used -/

/-- Models `strings.Contains`: `listPrefixEq needle hay` is true when `needle`
is a prefix of `hay` (character-wise). -/
def listPrefixEq : List Char → List Char → Bool
  | [], _ => true
  | _ :: _, [] => false
  | a :: as, b :: bs => a == b && listPrefixEq as bs

/-- Scanning helper for substring search. -/
def substrAux (needle : List Char) : List Char → Bool
  | [] => needle.isEmpty
  | c :: rest => listPrefixEq needle (c :: rest) || substrAux needle rest

/-- Models Go `strings.Contains s sub`. -/
def containsSubstr (s sub : String) : Bool :=
  substrAux sub.data s.data

/-- Models Go `strings.ToLower` (ASCII case folding, sufficient for the
month-name inputs handled by the program). -/
def goToLower (s : String) : String :=
  ⟨s.data.map Char.toLower⟩

/-- Whitespace trimming on character lists (both ends). -/
def trimList (l : List Char) : List Char :=
  ((l.dropWhile Char.isWhitespace).reverse.dropWhile Char.isWhitespace).reverse

/-- Models Go `strings.TrimSpace`. -/
def goTrimSpace (s : String) : String :=
  ⟨trimList s.data⟩

/-- Accumulating helper for `goFields`: splits a character list on
whitespace runs. -/
def fieldsAux (cur : List Char) (acc : List (List Char)) : List Char → List (List Char)
  | [] => if cur.isEmpty then acc.reverse else (cur.reverse :: acc).reverse
  | c :: cs =>
    if c.isWhitespace then
      fieldsAux [] (if cur.isEmpty then acc else cur.reverse :: acc) cs
    else
      fieldsAux (c :: cur) acc cs

/-- Models Go `strings.Fields`: the whitespace-delimited tokens of `s`. -/
def goFields (s : String) : List String :=
  (fieldsAux [] [] s.data).map List.asString

/-- Models Go `strings.TrimRight(s, ",.;:")`. -/
def goTrimRightPunct (s : String) : String :=
  ⟨(s.data.reverse.dropWhile (fun c => c == ',' || c == '.' || c == ';' || c == ':')).reverse⟩

/-- Value of a nonempty all-digit character list, `none` otherwise. -/
def digitsVal (l : List Char) : Option Nat :=
  if l ≠ [] ∧ l.all Char.isDigit then
    some (l.foldl (fun acc c => acc * 10 + (c.toNat - '0'.toNat)) 0)
  else none

/-- Models Go `strconv.Atoi`: an optional sign followed by one or more
digits; anything else is an error (`none`). -/
def goAtoi (s : String) : Option Int :=
  match s.data with
  | '+' :: rest => (digitsVal rest).map Int.ofNat
  | '-' :: rest => (digitsVal rest).map (fun n => -(n : Int))
  | l => (digitsVal l).map Int.ofNat

/-- Models the `%q` verb of Go `fmt` for the plain strings appearing in this
program (quotation marks around the text). -/
def goQuote (s : String) : String :=
  "\"" ++ s ++ "\""

/-! ## The date-keyed `Appointment` record and `filterNewAppointments`
(`scraper.go` lines 36-41, `filter.go`) -/

/-- `Appointment` from `scraper.go`: a slot keyed by an ISO date string. -/
structure Appointment where
  Date : String
  Time : String
  Spaces : Int
  IsAvailable : Bool
deriving DecidableEq

/-- The map key built in `filterNewAppointments`: `seen.Date + "|" + seen.Time`. -/
def apptKey (a : Appointment) : String :=
  a.Date ++ "|" ++ a.Time

/-- Membership in the seen-key set; models the `seenSet[key]` map lookup. -/
def keyMem (key : String) : List String → Bool
  | [] => false
  | k :: rest => if key = k then true else keyMem key rest

/-- `filterNewAppointments` from `filter.go`: with an empty seen list the
input is returned as-is; otherwise candidates whose `Date|Time` key occurs
among the seen keys are dropped, preserving order. -/
def filterNewAppointments (appointments seenAppointments : List Appointment) :
    List Appointment :=
  if seenAppointments.length = 0 then
    appointments
  else
    appointments.filter
      (fun appt => !(keyMem (apptKey appt) (seenAppointments.map apptKey)))

/-! ### Helper lemmas about `keyMem` and filtering -/

theorem keyMem_iff_mem (key : String) (l : List String) :
    keyMem key l = true ↔ key ∈ l := by
  induction l with
  | nil => simp [keyMem]
  | cons k rest ih =>
    by_cases h : key = k
    · simp [keyMem, h]
    · simp [keyMem, h, ih]

theorem filter_eq_nil_of_false {α : Type} (p : α → Bool) (l : List α)
    (h : ∀ a ∈ l, p a = false) : l.filter p = [] := by
  induction l with
  | nil => rfl
  | cons a rest ih =>
    have ha := h a (List.mem_cons_self a rest)
    have hrest := ih (fun b hb => h b (List.mem_cons_of_mem a hb))
    simp [List.filter, ha, hrest]

/-! ## The month-keyed variant: `isNewAppointment`, `monthNameToNumber`,
`filterAppointments` (month-based filter file in the repository) -/

/-- The `Appointment` struct of the month-based variant; its fields are the
ones read by `isNewAppointment` / `filterAppointments` and written by the
tests of that variant (`Month`, `Day`, `Time` strings and an availability flag). -/
structure MonthAppointment where
  Month : String
  Day : String
  Time : String
  IsAvailable : Bool
deriving DecidableEq

/-- `isNewAppointment`: an appointment is new when no seen appointment has
the same `Month` and `Day` (time and availability are not compared). -/
def isNewAppointment (appointment : MonthAppointment)
    (seenAppointments : List MonthAppointment) : Bool :=
  seenAppointments.all
    (fun seen => !(seen.Month = appointment.Month ∧ seen.Day = appointment.Day : Bool))

/-- Direct lookup of a full lowercase month name. -/
def monthDirect (s : String) : Option Int :=
  if s = "january" then some 1
  else if s = "february" then some 2
  else if s = "march" then some 3
  else if s = "april" then some 4
  else if s = "may" then some 5
  else if s = "june" then some 6
  else if s = "july" then some 7
  else if s = "august" then some 8
  else if s = "september" then some 9
  else if s = "october" then some 10
  else if s = "november" then some 11
  else if s = "december" then some 12
  else none

/-- Fuelled form of `monthNameToNumber`.  The Go function recurses on the
first whitespace-delimited token; that token contains no whitespace, so the
recursive call never recurses again and the recursion depth is at most 2,
which the fuel makes explicit. -/
def monthNameToNumberFuel : Nat → String → Except String Int
  | fuel, monthName =>
    let cleanedMonthName := goTrimSpace (goToLower monthName)
    match monthDirect cleanedMonthName with
    | some m => .ok m
    | none =>
      let parts := goFields cleanedMonthName
      match fuel, parts with
      | f + 1, p0 :: _ :: _ =>
        let firstWord := goTrimRightPunct p0
        if firstWord ≠ cleanedMonthName then
          match monthNameToNumberFuel f firstWord with
          | .ok m => .ok m
          | .error _ => .error ("unknown month name: " ++ goQuote monthName)
        else .error ("unknown month name: " ++ goQuote monthName)
      | _, _ => .error ("unknown month name: " ++ goQuote monthName)

/-- `monthNameToNumber`: lowercases and trims the input, matches full month
names directly, and otherwise retries once on the first whitespace-delimited
token with trailing `,.;:` punctuation removed (only when the input has more
than one token). -/
def monthNameToNumber (monthName : String) : Except String Int :=
  monthNameToNumberFuel 2 monthName

/-- Boolean success test for `Except` results. -/
def exceptIsOk {ε α : Type} : Except ε α → Bool
  | .ok _ => true
  | .error _ => false

/-! ### Calendar-date arithmetic modelling `time.Date` at midnight UTC

`time.Date(y, m, d, 0,0,0,0, UTC)` is represented by its day number
(days since 1970-01-01); `time.Time.Equal/After/Before` on midnight values
coincide with `=`, `>`, `<` on day numbers. -/

/-- Day number of the first of month `m` of year `y` (requires `1 ≤ m ≤ 12`);
the standard civil-calendar linearization. -/
def daysFromCivilFirst (y m : Int) : Int :=
  let y1 := if m ≤ 2 then y - 1 else y
  let era := y1.fdiv 400
  let yoe := y1 - era * 400
  let mp := if m ≤ 2 then m + 9 else m - 3
  let doy := (153 * mp + 2).fdiv 5
  let doe := yoe * 365 + yoe.fdiv 4 - yoe.fdiv 100 + doy
  era * 146097 + doe - 719468

/-- Models `time.Date(y, m, d, 0,0,0,0, UTC)` as a day number, including
the Go normalization of out-of-range months and days. -/
def goDateDays (y m d : Int) : Int :=
  let m0 := m - 1
  daysFromCivilFirst (y + m0.fdiv 12) (m0.emod 12 + 1) + (d - 1)

/-- Inverse of the civil linearization: the `(year, month, day)` triple of a
day number. -/
def civilFromDays (z0 : Int) : Int × Int × Int :=
  let z := z0 + 719468
  let era := z.fdiv 146097
  let doe := z - era * 146097
  let yoe := (doe - doe.fdiv 1460 + doe.fdiv 36524 - doe.fdiv 146096).fdiv 365
  let y := yoe + era * 400
  let doy := doe - (365 * yoe + yoe.fdiv 4 - yoe.fdiv 100)
  let mp := (5 * doy + 2).fdiv 153
  let d := doy - (153 * mp + 2).fdiv 5 + 1
  let m := if mp < 10 then mp + 3 else mp - 9
  (if m ≤ 2 then y + 1 else y, m, d)

/-- Two-digit zero padding for `Format("2006-01-02")`. -/
def pad2 (n : Int) : String :=
  if n < 10 then "0" ++ toString n else toString n

/-- Models `time.Time.Format("2006-01-02")` for a midnight date given by its
day number. -/
def formatDate (z : Int) : String :=
  let c := civilFromDays z
  toString c.1 ++ "-" ++ pad2 c.2.1 ++ "-" ++ pad2 c.2.2

/-- The `(Year, Month, Day)` triple of the wall clock (`time.Now()`),
passed explicitly since it is an effect. -/
structure Date3 where
  year : Int
  month : Int
  day : Int
deriving DecidableEq

/-- The year-determination step of `filterAppointments`: an explicit final
token parsing as a year in `[currentYear, currentYear+5)` wins; otherwise a
month earlier than the current one is assumed to be next year. -/
def resolveYear (now : Date3) (monthStr : String) (monthNum : Int) : Int :=
  let monthStrParts := goFields monthStr
  let parsedExplicitYear : Int :=
    if monthStrParts.length > 1 then
      match monthStrParts.getLast? with
      | some lastPart =>
        match goAtoi lastPart with
        | some pYear => if now.year ≤ pYear ∧ pYear < now.year + 5 then pYear else 0
        | none => 0
      | none => 0
    else 0
  if parsedExplicitYear > 0 then parsedExplicitYear
  else if monthNum < now.month then now.year + 1
  else now.year

/-- The per-candidate admission test of `filterAppointments`: available,
new, day and month parse, and the resolved date lies in
`[today, first-of-month(now) + monthsAhead+1 months)`. -/
def keepAppointment (seenAppointments : List MonthAppointment) (monthsAhead : Int)
    (now : Date3) (appt : MonthAppointment) : Bool :=
  if !appt.IsAvailable then false
  else if !isNewAppointment appt seenAppointments then false
  else
    match goAtoi appt.Day with
    | none => false
    | some day =>
      match monthNameToNumber appt.Month with
      | .error _ => false
      | .ok monthNum =>
        let year := resolveYear now appt.Month monthNum
        let apptDate := goDateDays year monthNum day
        let today := goDateDays now.year now.month now.day
        let targetDate := goDateDays now.year (now.month + monthsAhead + 1) 1
        decide (today ≤ apptDate) && decide (apptDate < targetDate)

/-- `filterAppointments` of the month-based variant: the stable filter of the
candidates by `keepAppointment` (the Go loop appends the survivors in input
order). -/
def filterAppointments (appointments seenAppointments : List MonthAppointment)
    (monthsAhead : Int) (now : Date3) : List MonthAppointment :=
  appointments.filter (keepAppointment seenAppointments monthsAhead now)

/-! ## JSON store model (`storage.go`)

`encoding/json` is a Go standard-library boundary; it is modelled at the
granularity of the JSON document: the seen-data file either is missing, is
empty, holds bytes that do not parse as JSON, or holds a JSON document.
`json.MarshalIndent` of the appointment list produces the array-of-objects
document below with the field tags of the struct; `json.Unmarshal` into
`[]Appointment` is the corresponding decoder (absent fields keep the zero
value, mismatched types fail). -/

/-- A JSON document. -/
inductive Json where
  | null
  | bool (b : Bool)
  | num (n : Int)
  | str (s : String)
  | arr (elems : List Json)
  | obj (fields : List (String × Json))

/-- State of the seen-data file. -/
inductive StoreFile where
  | missing
  | empty
  | malformed (raw : String)
  | wellFormed (content : Json)

/-- `json.Marshal` of one `Appointment`, with the tags of `scraper.go`. -/
def encodeAppointment (a : Appointment) : Json :=
  .obj [("date", .str a.Date), ("time", .str a.Time),
        ("spaces", .num a.Spaces), ("isAvailable", .bool a.IsAvailable)]

/-- `json.MarshalIndent` of a `[]Appointment` (the indentation is a
byte-level concern below the granularity of this model). -/
def encodeAppointments (l : List Appointment) : Json :=
  .arr (l.map encodeAppointment)

/-- First binding of a key in a JSON object. -/
def lookupField (fields : List (String × Json)) (key : String) : Option Json :=
  match fields with
  | [] => none
  | (k, v) :: rest => if k = key then some v else lookupField rest key

/-- Decode a string field: absent or null keeps the zero value `""`. -/
def decodeStrField (fields : List (String × Json)) (key : String) : Option String :=
  match lookupField fields key with
  | none => some ""
  | some (.str s) => some s
  | some .null => some ""
  | some _ => none

/-- Decode an int field: absent or null keeps the zero value `0`. -/
def decodeIntField (fields : List (String × Json)) (key : String) : Option Int :=
  match lookupField fields key with
  | none => some 0
  | some (.num n) => some n
  | some .null => some 0
  | some _ => none

/-- Decode a bool field: absent or null keeps the zero value `false`. -/
def decodeBoolField (fields : List (String × Json)) (key : String) : Option Bool :=
  match lookupField fields key with
  | none => some false
  | some (.bool b) => some b
  | some .null => some false
  | some _ => none

/-- `json.Unmarshal` of one array element into an `Appointment`. -/
def decodeAppointment (j : Json) : Option Appointment :=
  match j with
  | .obj fields => do
    let d ← decodeStrField fields "date"
    let t ← decodeStrField fields "time"
    let sp ← decodeIntField fields "spaces"
    let av ← decodeBoolField fields "isAvailable"
    some ⟨d, t, sp, av⟩
  | .null => some ⟨"", "", 0, false⟩
  | _ => none

/-- Element-wise decoding of the JSON array. -/
def decodeAppointmentList : List Json → Option (List Appointment)
  | [] => some []
  | j :: rest =>
    match decodeAppointment j, decodeAppointmentList rest with
    | some a, some l => some (a :: l)
    | _, _ => none

/-- `json.Unmarshal` of the whole document into `[]Appointment`. -/
def decodeAppointments (j : Json) : Option (List Appointment) :=
  match j with
  | .arr elems => decodeAppointmentList elems
  | .null => some []
  | _ => none

/-- `loadSeenAppointments` (`storage.go`): a missing or empty file is an
empty list with no error; unparseable bytes and mistyped documents are
errors. -/
def loadSeenAppointments (file : StoreFile) : Except String (List Appointment) :=
  match file with
  | .missing => .ok []
  | .empty => .ok []
  | .malformed raw =>
    .error ("failed to unmarshal appointments: invalid JSON: " ++ raw)
  | .wellFormed j =>
    match decodeAppointments j with
    | some appointments => .ok appointments
    | none => .error "failed to unmarshal appointments: type mismatch"

/-- `saveSeenAppointments` (`storage.go`): marshals the list and rewrites
the file with the resulting document. -/
def saveSeenAppointments (appointments : List Appointment) : StoreFile :=
  .wellFormed (encodeAppointments appointments)

/-! ## Scraper model (`scraper.go`)

HTTP transport, the compiled regular expressions and the goquery document
parsing are external effects, provided by a `ScrapeEnv`; the control flow of
`extractNonce`, `checkDateAvailability`, `parseAppointmentSlots`,
`extractSpaces`, `generateDateRange` and `scrapeAppointments` is embedded
directly. -/

/-- One `.timeslot` container as goquery delivers it: the text of its
`.timeslot-range` element and of its `.timeslot-time .spots-available`
element. -/
structure TimeslotNode where
  timeText : String
  spotsText : String

/-- The effect environment of one scraping cycle. -/
structure ScrapeEnv where
  /-- Outcome of `http.Get(bookingURL)`: transport error or (status, body). -/
  bookingPage : Except String (Int × String)
  /-- Outcome of `http.PostForm(ajaxURL, …)` for a given date and nonce. -/
  post : String → String → Except String (Int × String)
  /-- The `regexp` engine: first submatch of a nonce pattern in a body. -/
  regexSubmatch : String → String → Option String
  /-- goquery parsing plus the `.timeslot` selection over a response body. -/
  parseDoc : String → Except String (List TimeslotNode)
  /-- The two capture groups of `timePattern` in a time text, when it matches. -/
  timeSubmatch : String → Option (String × String)
  /-- The first capture group of `spacePattern` in a spaces text. -/
  spaceSubmatch : String → Option String
  /-- Day number of `time.Now()`. -/
  today : Int

/-- The nonce patterns of `scraper.go`, tried in priority order. -/
def noncePatterns : List String :=
  ["booked_js_vars.*?\"nonce\":\\s*\"([^\"]+)\"",
   "booked_wc_variables.*?\"nonce\":\\s*\"([^\"]+)\"",
   "\"nonce\":\\s*\"([^\"]+)\""]

/-- First pattern of `pats` that matches `content`, returning its first
capture group. -/
def firstPatternMatch (env : ScrapeEnv) (pats : List String) (content : String) :
    Option String :=
  match pats with
  | [] => none
  | p :: rest =>
    match env.regexSubmatch p content with
    | some m => some m
    | none => firstPatternMatch env rest content

/-- `extractNonce`: fetch the booking page, require status 200, and return
the first nonce-pattern capture. -/
def extractNonce (env : ScrapeEnv) : Except String String :=
  match env.bookingPage with
  | .error e => .error ("failed to fetch booking page: " ++ e)
  | .ok (status, content) =>
    if status ≠ 200 then .error ("booking page returned status " ++ toString status)
    else
      match firstPatternMatch env noncePatterns content with
      | some nonce => .ok nonce
      | none => .error "nonce not found in booking page"

/-- `extractSpaces`: the captured count, or 0 when the pattern does not
match (or the capture fails to parse). -/
def extractSpaces (env : ScrapeEnv) (text : String) : Int :=
  match env.spaceSubmatch text with
  | some digits =>
    match goAtoi digits with
    | some spaces => spaces
    | none => 0
  | none => 0

/-- `parseAppointmentSlots`: for each `.timeslot` whose time text matches
`timePattern`, emit an appointment whose availability is `spaces > 0`. -/
def parseAppointmentSlots (env : ScrapeEnv) (htmlContent date : String) :
    Except String (List Appointment) :=
  match env.parseDoc htmlContent with
  | .error e => .error ("failed to parse HTML: " ++ e)
  | .ok nodes =>
    .ok (nodes.filterMap (fun node =>
      let timeText := goTrimSpace node.timeText
      match env.timeSubmatch timeText with
      | none => none
      | some (t1, t2) =>
        let spacesText := goTrimSpace node.spotsText
        let spaces := extractSpaces env spacesText
        some { Date := date, Time := t1 ++ " – " ++ t2,
               Spaces := spaces, IsAvailable := decide (0 < spaces) }))

/-- `checkDateAvailability`: POST, require status 200, recognize the
invalid-nonce and no-slots marker texts, else parse the fragment. -/
def checkDateAvailability (env : ScrapeEnv) (date nonce : String) :
    Except String (List Appointment) :=
  match env.post date nonce with
  | .error e => .error ("API request failed: " ++ e)
  | .ok (status, responseText) =>
    if status ≠ 200 then .error ("API returned status " ++ toString status)
    else if containsSubstr responseText "Required \"nonce\" value is not here" then
      .error "invalid nonce"
    else if containsSubstr responseText "There are no appointment time slots available" then
      .ok []
    else parseAppointmentSlots env responseText date

/-- `generateDateRange`: `make([]string, days)` panics (`none`) for a
negative count, otherwise the `days` consecutive formatted dates from
`startDate`. -/
def generateDateRange (startDate : Int) (days : Int) : Option (List String) :=
  if days < 0 then none
  else some ((List.range days.toNat).map (fun i : Nat => formatDate (startDate + (i : Int))))

/-- A Go computation that may panic instead of returning. -/
inductive PanicOr (α : Type) where
  | panicked (msg : String)
  | returned (a : α)

/-- The per-date loop of `scrapeAppointments`, threading the current nonce:
on an invalid-nonce error the nonce is refreshed once and the date retried
once (a failed refresh leaves the zero-value nonce `""`); other errors skip
the date; available appointments accumulate in input order. -/
def scrapeLoop (env : ScrapeEnv) (dates : List String) (nonce : String)
    (acc : List Appointment) : List Appointment :=
  match dates with
  | [] => acc
  | date :: rest =>
    match checkDateAvailability env date nonce with
    | .ok appointments =>
      scrapeLoop env rest nonce (acc ++ appointments.filter (·.IsAvailable))
    | .error e =>
      if containsSubstr e "invalid nonce" then
        match extractNonce env with
        | .error _ => scrapeLoop env rest "" acc
        | .ok nonce2 =>
          match checkDateAvailability env date nonce2 with
          | .ok appointments2 =>
            scrapeLoop env rest nonce2 (acc ++ appointments2.filter (·.IsAvailable))
          | .error _ => scrapeLoop env rest nonce2 acc
      else scrapeLoop env rest nonce acc

/-- `scrapeAppointments`: extract the nonce (aborting on failure), enumerate
`monthsAhead * 30` dates from today, and run the per-date loop. -/
def scrapeAppointments (env : ScrapeEnv) (monthsAhead : Int) :
    PanicOr (Except String (List Appointment)) :=
  match extractNonce env with
  | .error e => .returned (.error ("failed to extract nonce: " ++ e))
  | .ok nonce =>
    match generateDateRange env.today (monthsAhead * 30) with
    | none => .panicked "makeslice: len out of range"
    | some dates => .returned (.ok (scrapeLoop env dates nonce []))

/-! ## Cycle orchestrator (`main.go`) -/

/-- Observable outcome of one `runScrapingCycle` invocation. -/
structure CycleTrace where
  /-- Whether `loadSeenAppointments` returned an error. -/
  loadError : Bool
  /-- Whether `scrapeAppointments` (and hence the booking-page fetch) ran. -/
  fetchAttempted : Bool
  /-- Whether `filterNewAppointments` ran. -/
  filterRun : Bool
  /-- The file content written by the save step, `none` when the cycle
  returned before saving. -/
  savedFile : Option StoreFile

/-- `runScrapingCycle` (`main.go`): a load error is logged and replaced by
an empty seen list; the scrape always runs next; a scrape error returns
before filtering and saving; otherwise the new appointments are filtered,
appended to the seen list when nonempty, and the merged list is saved. -/
def runScrapingCycle (file : StoreFile) (env : ScrapeEnv) (monthsLookahead : Int) :
    PanicOr CycleTrace :=
  let loadRes := loadSeenAppointments file
  let seenAppointments := match loadRes with
    | .ok s => s
    | .error _ => []
  let loadErr := match loadRes with
    | .ok _ => false
    | .error _ => true
  match scrapeAppointments env monthsLookahead with
  | .panicked msg => .panicked msg
  | .returned (.error _) =>
    .returned { loadError := loadErr, fetchAttempted := true,
                filterRun := false, savedFile := none }
  | .returned (.ok scrapedAppointments) =>
    let newAppointments := filterNewAppointments scrapedAppointments seenAppointments
    let seenAppointments2 :=
      if newAppointments.length > 0 then seenAppointments ++ newAppointments
      else seenAppointments
    .returned { loadError := loadErr, fetchAttempted := true,
                filterRun := true,
                savedFile := some (saveSeenAppointments seenAppointments2) }

/-- Shared helper: with an empty seen list `filterNewAppointments` is the
identity (the short-circuit branch of `filter.go`). -/
theorem filterNew_nil_seen (appointments : List Appointment) :
    filterNewAppointments appointments [] = appointments := rfl

/-! ## Claim C2: the novelty filter with an empty seen set -/

/-- C2 (counterexample): with an empty seen set, `filterNewAppointments`
returns the candidate list unchanged, so an unavailable candidate
(`available == false`) is NOT removed — refuting the claim that the result
is exactly the available candidates. -/
theorem filterNew_empty_seen_keeps_unavailable :
    filterNewAppointments [⟨"2024-05-16", "2:00 pm – 3:00 pm", 0, false⟩] []
      = [⟨"2024-05-16", "2:00 pm – 3:00 pm", 0, false⟩]
    ∧ (Appointment.mk "2024-05-16" "2:00 pm – 3:00 pm" 0 false).IsAvailable = false := by
  constructor
  · rfl
  · rfl

/-- C2 (amended): for every candidate list, running `filterNewAppointments`
with an empty seen set returns the candidate list itself, in input order;
unavailable candidates are not removed (availability is never inspected by
this filter — it is enforced upstream by `scrapeAppointments`). -/
theorem filterNew_empty_seen_identity (appointments : List Appointment) :
    filterNewAppointments appointments [] = appointments := rfl

/-! ## Claim C7: idempotence of the novelty filter -/

/-- C7: if the first run of `filterNewAppointments` on `appointments`
against `seenAppointments` yields `R`, a second run against
`seenAppointments ++ R` yields the empty list. -/
theorem filterNew_idempotent (appointments seenAppointments : List Appointment) :
    filterNewAppointments appointments
      (seenAppointments ++ filterNewAppointments appointments seenAppointments) = [] := by
  by_cases hs : seenAppointments.length = 0
  · have hnil : seenAppointments = [] := List.length_eq_zero.mp hs
    subst hnil
    rw [filterNew_nil_seen, List.nil_append]
    cases ha : appointments with
    | nil => rfl
    | cons x xs =>
      show filterNewAppointments (x :: xs) (x :: xs) = []
      unfold filterNewAppointments
      rw [if_neg (by simp)]
      apply filter_eq_nil_of_false
      intro a hmem
      have hk : apptKey a ∈ (x :: xs).map apptKey := List.mem_map_of_mem _ hmem
      have hkm := (keyMem_iff_mem (apptKey a) ((x :: xs).map apptKey)).mpr hk
      simp only [Bool.not_eq_false']
      simpa using hkm
  · set R := filterNewAppointments appointments seenAppointments with hR
    have hRfilter : R = appointments.filter
        (fun appt => !(keyMem (apptKey appt) (seenAppointments.map apptKey))) := by
      rw [hR]; unfold filterNewAppointments; rw [if_neg hs]
    have hne : (seenAppointments ++ R).length ≠ 0 := by
      simp only [List.length_append]
      intro hcontra
      exact hs (Nat.eq_zero_of_add_eq_zero_right hcontra)
    unfold filterNewAppointments
    rw [if_neg hne]
    apply filter_eq_nil_of_false
    intro a ha
    simp only [Bool.not_eq_false']
    rw [keyMem_iff_mem, List.map_append, List.mem_append]
    by_cases hk : keyMem (apptKey a) (seenAppointments.map apptKey) = true
    · exact Or.inl ((keyMem_iff_mem _ _).mp hk)
    · right
      apply List.mem_map_of_mem
      rw [hRfilter]
      apply List.mem_filter.mpr
      exact ⟨ha, by simp [Bool.not_eq_true'] at hk ⊢; exact hk⟩

/-! ## Claim C8: seen-store round trip -/

theorem decodeAppointment_encode (a : Appointment) :
    decodeAppointment (encodeAppointment a) = some a := by
  cases a
  rfl

theorem decodeAppointmentList_encode (l : List Appointment) :
    decodeAppointmentList (l.map encodeAppointment) = some l := by
  induction l with
  | nil => rfl
  | cons a rest ih =>
    simp [decodeAppointmentList, decodeAppointment_encode, ih]

/-- C8: saving any appointment list and loading it back yields the original
list, and the empty list serializes to the empty JSON array. -/
theorem store_round_trip (l : List Appointment) :
    loadSeenAppointments (saveSeenAppointments l) = .ok l
    ∧ saveSeenAppointments [] = .wellFormed (.arr []) := by
  refine ⟨?_, rfl⟩
  simp [loadSeenAppointments, saveSeenAppointments, encodeAppointments,
        decodeAppointments, decodeAppointmentList_encode]

/-! ## Claim C3: the seen-identity of the novelty filter -/

theorem str_eq_of_data {s t : String} (h : s.data = t.data) : s = t := by
  cases s
  cases t
  exact congrArg String.mk h

theorem str_data_append (s t : String) : (s ++ t).data = s.data ++ t.data := by
  cases s
  cases t
  rfl

theorem pipe_split (d1 t1 d2 t2 : List Char) (h1 : '|' ∉ d1) (h2 : '|' ∉ d2)
    (h : d1 ++ '|' :: t1 = d2 ++ '|' :: t2) : d1 = d2 ∧ t1 = t2 := by
  induction d1 generalizing d2 with
  | nil =>
    cases d2 with
    | nil => simpa using h
    | cons b bs =>
      simp only [List.nil_append, List.cons_append] at h
      have hb : '|' = b := (List.cons.injEq _ _ _ _).mp h |>.1
      exact absurd (hb ▸ List.mem_cons_self b bs) h2
  | cons a as ih =>
    cases d2 with
    | nil =>
      simp only [List.cons_append, List.nil_append] at h
      have hb : a = '|' := (List.cons.injEq _ _ _ _).mp h |>.1
      exact absurd (hb ▸ List.mem_cons_self a as) h1
    | cons b bs =>
      simp only [List.cons_append] at h
      obtain ⟨hab, hrest⟩ := (List.cons.injEq _ _ _ _).mp h
      have h1' : '|' ∉ as := fun hm => h1 (List.mem_cons_of_mem a hm)
      have h2' : '|' ∉ bs := fun hm => h2 (List.mem_cons_of_mem b hm)
      obtain ⟨hd, ht⟩ := ih bs h1' h2' hrest
      exact ⟨by rw [hab, hd], ht⟩

theorem apptKey_data (a : Appointment) :
    (apptKey a).data = a.Date.data ++ '|' :: a.Time.data := by
  unfold apptKey
  rw [str_data_append, str_data_append]
  simp

/-- When neither Date contains the separator, key equality is exactly
(date, time) pair equality. -/
theorem apptKey_eq_iff (s a : Appointment)
    (hs : '|' ∉ s.Date.data) (ha : '|' ∉ a.Date.data) :
    apptKey s = apptKey a ↔ s.Date = a.Date ∧ s.Time = a.Time := by
  constructor
  · intro h
    have hdata : (apptKey s).data = (apptKey a).data := by rw [h]
    rw [apptKey_data, apptKey_data] at hdata
    obtain ⟨hd, ht⟩ := pipe_split _ _ _ _ hs ha hdata
    exact ⟨str_eq_of_data hd, str_eq_of_data ht⟩
  · intro ⟨hd, ht⟩
    unfold apptKey
    rw [hd, ht]

/-- C3 (counterexample): the concatenated `Date + "|" + Time` key collides
for distinct (date, time) pairs, so a candidate can be treated as already
seen although no seen slot has its (date, time) pair — refuting the claimed
"if and only if". -/
theorem filterNew_key_collision :
    filterNewAppointments [⟨"a|b", "c", 1, true⟩] [⟨"a", "b|c", 2, true⟩] = []
    ∧ ¬((Appointment.mk "a" "b|c" 2 true).Date = (Appointment.mk "a|b" "c" 1 true).Date
        ∧ (Appointment.mk "a" "b|c" 2 true).Time = (Appointment.mk "a|b" "c" 1 true).Time) := by
  constructor
  · rfl
  · decide

/-- C3 (amended): provided no `Date` field contains the separator character
`'|'`, `filterNewAppointments` keeps a candidate exactly when no seen slot
has the same (date, time) pair; and the `Spaces` / `IsAvailable` fields of
the seen slots never affect the result (rewriting them arbitrarily leaves
the filter output unchanged). -/
theorem filterNew_seen_identity (a : Appointment)
    (appointments seenAppointments : List Appointment)
    (f : Appointment → Int) (g : Appointment → Bool)
    (hpa : '|' ∉ a.Date.data)
    (hps : ∀ s ∈ seenAppointments, '|' ∉ s.Date.data) :
    (a ∈ filterNewAppointments appointments seenAppointments ↔
      a ∈ appointments
      ∧ ¬ ∃ s ∈ seenAppointments, s.Date = a.Date ∧ s.Time = a.Time)
    ∧ filterNewAppointments appointments
        (seenAppointments.map (fun s => { s with Spaces := f s, IsAvailable := g s }))
      = filterNewAppointments appointments seenAppointments := by
  constructor
  · by_cases hlen : seenAppointments.length = 0
    · have hnil : seenAppointments = [] := List.length_eq_zero.mp hlen
      subst hnil
      simp [filterNew_nil_seen]
    · have hfil : filterNewAppointments appointments seenAppointments
          = appointments.filter
              (fun appt => !(keyMem (apptKey appt) (seenAppointments.map apptKey))) := by
        unfold filterNewAppointments
        rw [if_neg hlen]
      rw [hfil, List.mem_filter]
      constructor
      · rintro ⟨hmem, hpred⟩
        refine ⟨hmem, ?_⟩
        rintro ⟨s, hsmem, hd, ht⟩
        have hkey : apptKey s = apptKey a :=
          (apptKey_eq_iff s a (hps s hsmem) hpa).mpr ⟨hd, ht⟩
        have : keyMem (apptKey a) (seenAppointments.map apptKey) = true :=
          (keyMem_iff_mem _ _).mpr (hkey ▸ List.mem_map_of_mem apptKey hsmem)
        rw [this] at hpred
        simp at hpred
      · rintro ⟨hmem, hnone⟩
        refine ⟨hmem, ?_⟩
        simp only [Bool.not_eq_true']
        rw [← Bool.not_eq_true, keyMem_iff_mem]
        intro hin
        obtain ⟨s, hsmem, hkey⟩ := List.mem_map.mp hin
        obtain ⟨hd, ht⟩ := (apptKey_eq_iff s a (hps s hsmem) hpa).mp hkey
        exact hnone ⟨s, hsmem, hd, ht⟩
  · have hkeys : (seenAppointments.map
        (fun s => ({ s with Spaces := f s, IsAvailable := g s } : Appointment))).map apptKey
        = seenAppointments.map apptKey := by
      rw [List.map_map]
      rfl
    unfold filterNewAppointments
    rw [List.length_map, hkeys]

/-- Concrete slot used by the C3 witness. -/
def sampleSlot : Appointment :=
  ⟨"2024-05-15", "10:00 am – 11:00 am", 2, true⟩

/-- Witness for `filterNew_seen_identity` at a concrete pipe-free input. -/
theorem filterNew_seen_identity_witness :
    (sampleSlot ∈ filterNewAppointments [sampleSlot] [] ↔
      sampleSlot ∈ [sampleSlot]
      ∧ ¬ ∃ s ∈ ([] : List Appointment),
            s.Date = sampleSlot.Date ∧ s.Time = sampleSlot.Time)
    ∧ filterNewAppointments [sampleSlot]
        (([] : List Appointment).map
          (fun s => { s with Spaces := (0 : Int), IsAvailable := false }))
      = filterNewAppointments [sampleSlot] [] :=
  filterNew_seen_identity sampleSlot [sampleSlot] []
    (fun _ => 0) (fun _ => false) (by decide) (by simp)

/-! ## Claim C4: the date window of `filterAppointments` -/

/-- C4: for an available, unseen candidate whose day and month resolve, the
month-variant filter admits the slot exactly when its resolved calendar date
(at midnight) is on or after today and strictly before the first day of the
month `monthsAhead + 1` months after the first day of the current month. -/
theorem filterAppointments_date_window (now : Date3) (monthsAhead : Int)
    (seenAppointments : List MonthAppointment) (appt : MonthAppointment)
    (day monthNum : Int)
    (havail : appt.IsAvailable = true)
    (hnew : isNewAppointment appt seenAppointments = true)
    (hday : goAtoi appt.Day = some day)
    (hmonth : monthNameToNumber appt.Month = .ok monthNum) :
    filterAppointments [appt] seenAppointments monthsAhead now = [appt] ↔
      (goDateDays now.year now.month now.day
          ≤ goDateDays (resolveYear now appt.Month monthNum) monthNum day
       ∧ goDateDays (resolveYear now appt.Month monthNum) monthNum day
          < goDateDays now.year (now.month + monthsAhead + 1) 1) := by
  have hkeep : keepAppointment seenAppointments monthsAhead now appt
      = (decide (goDateDays now.year now.month now.day
            ≤ goDateDays (resolveYear now appt.Month monthNum) monthNum day)
         && decide (goDateDays (resolveYear now appt.Month monthNum) monthNum day
            < goDateDays now.year (now.month + monthsAhead + 1) 1)) := by
    unfold keepAppointment
    rw [havail, hnew, hday, hmonth]
    rfl
  have hfil : filterAppointments [appt] seenAppointments monthsAhead now
      = if keepAppointment seenAppointments monthsAhead now appt
        then [appt] else [] := by
    cases hk : keepAppointment seenAppointments monthsAhead now appt with
    | true => simp [filterAppointments, List.filter, hk]
    | false => simp [filterAppointments, List.filter, hk]
  rw [hfil, hkeep]
  by_cases h1 : goDateDays now.year now.month now.day
      ≤ goDateDays (resolveYear now appt.Month monthNum) monthNum day
  · by_cases h2 : goDateDays (resolveYear now appt.Month monthNum) monthNum day
        < goDateDays now.year (now.month + monthsAhead + 1) 1
    · simp [h1, h2]
    · simp [h1, h2]
  · simp [h1]

/-- The candidate and clock of the date-filtering test in the repository:
today is 2024-01-15 and the slot is January 20, 2024. -/
def sampleMonthSlot : MonthAppointment :=
  ⟨"January 2024", "20", "", true⟩

/-- Witness for `filterAppointments_date_window` at the test data of the
repository (today 2024-01-15, candidate January 20 2024, zero months ahead). -/
theorem filterAppointments_date_window_witness :
    filterAppointments [sampleMonthSlot] [] 0 ⟨2024, 1, 15⟩ = [sampleMonthSlot] :=
  (filterAppointments_date_window ⟨2024, 1, 15⟩ 0 [] sampleMonthSlot 20 1
    rfl rfl rfl rfl).mpr (by decide)

/-! ## Claim C5: month-name resolution -/

/-- C5: full month names resolve case-insensitively, multi-token forms
resolve via their first token, and abbreviated / empty / year-only inputs
fail — but a single token with trailing punctuation such as `"June,"` also
fails, although the test table in the repository expects it to resolve to
June: the retry branch of `monthNameToNumber` requires more than one
whitespace-delimited token. -/
theorem monthNameToNumber_trailing_comma_bug :
    monthNameToNumber "January" = .ok 1
    ∧ monthNameToNumber "february" = .ok 2
    ∧ monthNameToNumber "MarCH" = .ok 3
    ∧ monthNameToNumber "April 2024" = .ok 4
    ∧ monthNameToNumber "May, 2025" = .ok 5
    ∧ monthNameToNumber " July " = .ok 7
    ∧ exceptIsOk (monthNameToNumber "Jun") = false
    ∧ exceptIsOk (monthNameToNumber "") = false
    ∧ exceptIsOk (monthNameToNumber "2023") = false
    ∧ exceptIsOk (monthNameToNumber "June,") = false :=
  ⟨rfl, rfl, rfl, rfl, rfl, rfl, rfl, rfl, rfl, rfl⟩

/-! ## Concrete effect environments used by witnesses and counterexamples -/

/-- An environment where the nonce extracts and every date reports no
slots. -/
def envOk : ScrapeEnv :=
  { bookingPage := .ok (200, "page"),
    post := fun _ _ => .ok (200, "There are no appointment time slots available"),
    regexSubmatch := fun _ _ => some "nonce123",
    parseDoc := fun _ => .ok [],
    timeSubmatch := fun _ => none,
    spaceSubmatch := fun _ => none,
    today := 0 }

/-- An environment where fetching the booking page fails, so nonce
extraction fails. -/
def envBad : ScrapeEnv :=
  { bookingPage := .error "connection refused",
    post := fun _ _ => .error "unreachable",
    regexSubmatch := fun _ _ => none,
    parseDoc := fun _ => .error "no document",
    timeSubmatch := fun _ => none,
    spaceSubmatch := fun _ => none,
    today := 0 }

/-- An environment where exactly the first enumerated date (1970-01-01,
for `today = 0`) carries one three-space slot. -/
def envSlots : ScrapeEnv :=
  { bookingPage := .ok (200, "page"),
    post := fun date _ =>
      .ok (200, if date = "1970-01-01" then "slots"
                else "There are no appointment time slots available"),
    regexSubmatch := fun _ _ => some "n1",
    parseDoc := fun _ => .ok [⟨"10:00 am - 11:00 am", "3 spaces available"⟩],
    timeSubmatch := fun _ => some ("10:00 am", "11:00 am"),
    spaceSubmatch := fun _ => some "3",
    today := 0 }

/-! ## Claim C1: a corrupt seen-data file does not abort the cycle -/

/-- C1 (counterexample): with a malformed seen-data file the load step does
return an error, but the run does NOT abort before the fetch: the scrape
runs, the filter runs, and a seen list is saved — refuting the claimed
abort. -/
theorem corrupt_store_not_fatal :
    exceptIsOk (loadSeenAppointments (.malformed "[\x7bmalformed json\x7d\x7d")) = false
    ∧ runScrapingCycle (.malformed "[\x7bmalformed json\x7d\x7d") envOk 0
      = .returned { loadError := true, fetchAttempted := true, filterRun := true,
                    savedFile := some (saveSeenAppointments []) } :=
  ⟨rfl, rfl⟩

/-- C1 (amended): on a malformed seen-data file, `loadSeenAppointments`
returns an unmarshal error, but `runScrapingCycle` logs it and continues
with an empty seen set: whenever the scrape returns successfully, the fetch
and the filter both run and the scraped appointments are saved as the new
seen set. -/
theorem corrupt_store_cycle_continues (raw : String) (env : ScrapeEnv) (m : Int)
    (appts : List Appointment)
    (h : scrapeAppointments env m = .returned (.ok appts)) :
    exceptIsOk (loadSeenAppointments (.malformed raw)) = false
    ∧ runScrapingCycle (.malformed raw) env m
      = .returned { loadError := true, fetchAttempted := true, filterRun := true,
                    savedFile := some (saveSeenAppointments appts) } := by
  refine ⟨rfl, ?_⟩
  unfold runScrapingCycle
  rw [h]
  cases appts with
  | nil => rfl
  | cons x xs => simp [loadSeenAppointments, filterNewAppointments]

/-- Witness for `corrupt_store_cycle_continues` at a concrete malformed
file and the successfully-scraping environment `envOk`. -/
theorem corrupt_store_cycle_continues_witness :
    exceptIsOk (loadSeenAppointments (.malformed "not json")) = false
    ∧ runScrapingCycle (.malformed "not json") envOk 0
      = .returned { loadError := true, fetchAttempted := true, filterRun := true,
                    savedFile := some (saveSeenAppointments []) } :=
  corrupt_store_cycle_continues "not json" envOk 0 [] rfl

/-! ## Claim C6: nonce-extraction failure aborts the cycle before saving -/

/-- C6: if nonce extraction fails, `scrapeAppointments` returns an error,
and `runScrapingCycle` returns before the filter and save steps — no slots
are recorded and the seen-data file is not rewritten. -/
theorem token_failure_aborts_cycle (env : ScrapeEnv) (file : StoreFile)
    (m : Int) (e : String) (h : extractNonce env = .error e) :
    scrapeAppointments env m
      = .returned (.error ("failed to extract nonce: " ++ e))
    ∧ ∃ t, runScrapingCycle file env m = .returned t
        ∧ t.filterRun = false ∧ t.savedFile = none := by
  have hs : scrapeAppointments env m
      = .returned (.error ("failed to extract nonce: " ++ e)) := by
    unfold scrapeAppointments
    rw [h]
  refine ⟨hs, ?_⟩
  unfold runScrapingCycle
  rw [hs]
  exact ⟨_, rfl, rfl, rfl⟩

/-- Witness for `token_failure_aborts_cycle`: a failing booking-page fetch. -/
theorem token_failure_aborts_cycle_witness :
    scrapeAppointments envBad 3
      = .returned (.error ("failed to extract nonce: "
          ++ "failed to fetch booking page: connection refused"))
    ∧ ∃ t, runScrapingCycle .missing envBad 3 = .returned t
        ∧ t.filterRun = false ∧ t.savedFile = none :=
  token_failure_aborts_cycle envBad .missing 3
    "failed to fetch booking page: connection refused" rfl

/-! ## Claim C9: the scraper returns only available slots -/

theorem parseAppointmentSlots_inv (env : ScrapeEnv) (html date : String)
    (appts : List Appointment)
    (h : parseAppointmentSlots env html date = .ok appts) :
    ∀ a ∈ appts, a.IsAvailable = decide (0 < a.Spaces) := by
  unfold parseAppointmentSlots at h
  cases hd : env.parseDoc html with
  | error e =>
    rw [hd] at h
    simp at h
  | ok nodes =>
    rw [hd] at h
    have hl : appts = nodes.filterMap (fun node =>
        let timeText := goTrimSpace node.timeText
        match env.timeSubmatch timeText with
        | none => none
        | some (t1, t2) =>
          let spacesText := goTrimSpace node.spotsText
          let spaces := extractSpaces env spacesText
          some { Date := date, Time := t1 ++ " – " ++ t2,
                 Spaces := spaces, IsAvailable := decide (0 < spaces) }) := by
      cases h
      rfl
    intro a ha
    rw [hl] at ha
    obtain ⟨node, _, hsome⟩ := List.mem_filterMap.mp ha
    dsimp only at hsome
    revert hsome
    cases env.timeSubmatch (goTrimSpace node.timeText) with
    | none => intro hsome; cases hsome
    | some tt =>
      obtain ⟨t1, t2⟩ := tt
      intro hsome
      dsimp only at hsome
      rw [← Option.some.inj hsome]

theorem checkDateAvailability_inv (env : ScrapeEnv) (date nonce : String)
    (appts : List Appointment)
    (h : checkDateAvailability env date nonce = .ok appts) :
    ∀ a ∈ appts, a.IsAvailable = decide (0 < a.Spaces) := by
  unfold checkDateAvailability at h
  split at h
  · simp at h
  · split_ifs at h with h1 h2 h3
    · have h4 : [] = appts := Except.ok.inj h
      subst h4
      intro a ha
      cases ha
    · exact parseAppointmentSlots_inv env _ date appts h

theorem scrapeLoop_inv (env : ScrapeEnv) (dates : List String) :
    ∀ (nonce : String) (acc : List Appointment),
      (∀ a ∈ acc, a.IsAvailable = true ∧ 0 < a.Spaces) →
      ∀ a ∈ scrapeLoop env dates nonce acc,
        a.IsAvailable = true ∧ 0 < a.Spaces := by
  induction dates with
  | nil =>
    intro nonce acc hacc a ha
    exact hacc a ha
  | cons date rest ih =>
    intro nonce acc hacc a ha
    have hstep : ∀ (appts : List Appointment),
        (∀ b ∈ appts, b.IsAvailable = decide (0 < b.Spaces)) →
        ∀ b ∈ acc ++ appts.filter (·.IsAvailable),
          b.IsAvailable = true ∧ 0 < b.Spaces := by
      intro appts hinv b hb
      rcases List.mem_append.mp hb with hmem | hmem
      · exact hacc b hmem
      · obtain ⟨hmem2, hav⟩ := List.mem_filter.mp hmem
        refine ⟨hav, ?_⟩
        have hd := hinv b hmem2
        rw [hav] at hd
        exact of_decide_eq_true hd.symm
    unfold scrapeLoop at ha
    split at ha
    · rename_i appointments heq
      exact ih nonce _
        (hstep appointments (checkDateAvailability_inv env date nonce appointments heq)) a ha
    · rename_i e heq
      split at ha
      · split at ha
        · exact ih "" acc hacc a ha
        · rename_i nonce2 heq2
          split at ha
          · rename_i appointments2 heq3
            exact ih nonce2 _
              (hstep appointments2
                (checkDateAvailability_inv env date nonce2 appointments2 heq3)) a ha
          · exact ih nonce2 acc hacc a ha
      · exact ih nonce acc hacc a ha

/-- C9: every appointment returned by a successful `scrapeAppointments` run
has `IsAvailable = true` and strictly positive `Spaces` — unavailable slots
are dropped at extraction time, before the novelty filter runs. -/
theorem scrape_only_available (env : ScrapeEnv) (monthsAhead : Int)
    (appts : List Appointment)
    (h : scrapeAppointments env monthsAhead = .returned (.ok appts)) :
    ∀ a ∈ appts, a.IsAvailable = true ∧ 0 < a.Spaces := by
  unfold scrapeAppointments at h
  split at h
  · simp at h
  · rename_i nonce heq
    split at h
    · simp at h
    · rename_i dates heq2
      simp only [PanicOr.returned.injEq, Except.ok.injEq] at h
      rw [← h]
      exact scrapeLoop_inv env dates nonce [] (by simp)

/-- The one slot `envSlots` yields. -/
def scrapedSlot : Appointment :=
  ⟨"1970-01-01", "10:00 am – 11:00 am", 3, true⟩

/-- Witness for `scrape_only_available`: one month of `envSlots` yields
exactly `scrapedSlot`, which is available with positive capacity. -/
theorem scrape_only_available_witness :
    scrapedSlot.IsAvailable = true ∧ 0 < scrapedSlot.Spaces :=
  scrape_only_available envSlots 1 [scrapedSlot] rfl scrapedSlot (by simp)

/-! ## Claim C10: `generateDateRange` panics on negative day counts -/

/-- C10: `generateDateRange` is total exactly for `0 ≤ days`, where it
returns the `days` consecutive formatted dates from the start date; a
negative `days` models the `make([]string, days)` panic; and since no
caller validates `monthsAhead`, a negative months configuration reaches the
panic inside `scrapeAppointments` (once the nonce has been extracted). -/
theorem generateDateRange_negative_panics (startDate days : Int)
    (env : ScrapeEnv) (m : Int) :
    (days < 0 → generateDateRange startDate days = none)
    ∧ (0 ≤ days → generateDateRange startDate days
          = some ((List.range days.toNat).map
              (fun i : Nat => formatDate (startDate + (i : Int))))
        ∧ ((List.range days.toNat).map
            (fun i : Nat => formatDate (startDate + (i : Int)))).length = days.toNat)
    ∧ (m < 0 → exceptIsOk (extractNonce env) = true →
        scrapeAppointments env m = .panicked "makeslice: len out of range") := by
  refine ⟨?_, ?_, ?_⟩
  · intro hneg
    unfold generateDateRange
    rw [if_pos hneg]
  · intro hpos
    refine ⟨?_, by rw [List.length_map, List.length_range]⟩
    unfold generateDateRange
    rw [if_neg (not_lt.mpr hpos)]
  · intro hm hok
    cases hn : extractNonce env with
    | error e =>
      rw [hn] at hok
      simp [exceptIsOk] at hok
    | ok nonce =>
      have hneg : m * 30 < 0 := mul_neg_of_neg_of_pos hm (by norm_num)
      have hgen : generateDateRange env.today (m * 30) = none := by
        unfold generateDateRange
        rw [if_pos hneg]
      unfold scrapeAppointments
      simp [hn, hgen]

/-- Witness for `generateDateRange_negative_panics`: `-1` days panics,
`3` days yields three dates, and `-1` months panics inside
`scrapeAppointments` under `envOk`. -/
theorem generateDateRange_negative_panics_witness :
    generateDateRange 0 (-1) = none
    ∧ (generateDateRange 0 3
          = some ((List.range (3 : Int).toNat).map
              (fun i : Nat => formatDate ((0 : Int) + (i : Int))))
        ∧ ((List.range (3 : Int).toNat).map
            (fun i : Nat => formatDate ((0 : Int) + (i : Int)))).length = (3 : Int).toNat)
    ∧ scrapeAppointments envOk (-1) = .panicked "makeslice: len out of range" :=
  ⟨(generateDateRange_negative_panics 0 (-1) envOk (-1)).1 (by decide),
   (generateDateRange_negative_panics 0 3 envOk (-1)).2.1 (by decide),
   (generateDateRange_negative_panics 0 3 envOk (-1)).2.2 (by decide) rfl⟩
